import Mathlib

/-
Verification of the resilient temporary-directory lifecycle manager of the
claude-code-security-review repository (claudecode/windows_cleanup.py,
claudecode/platform_utils.py, claudecode/safe_temp.py).

The Python code is shallowly embedded: the filesystem is modelled as an
inductive tree of entries, each annotated with the failure behaviour the
environment inflicts on the removal operations touching it (how many initial
attempts of os.remove / os.rmdir fail, whether os.listdir succeeds).
Exceptions are modelled with Except, mutable statistics counters are threaded
explicitly, and each teardown function additionally returns a ghost trace of
the removal events it performed, in order, so that ordering and completeness
properties can be stated.  time.sleep calls only consume wall-clock time; the
number of sleeps performed is reported where a claim mentions retry delays.
-/

/-- Python exceptions relevant to the cleanup code.  The two
WindowsCleanupError messages raised by windows_cleanup.py are distinguished
structurally: depthLimitExceeded is the "Recursion depth limit exceeded"
message of _manual_rmtree, allStrategiesFailed is the "All removal strategies
failed for {path}: {e}, {e2}, {e3}" message of safe_rmtree, which carries the
three underlying strategy failures. -/
inductive PyErr : Type where
  | permissionError : PyErr
  | fileNotFoundError : PyErr
  | osError : PyErr
  | depthLimitExceeded (path : List String) : PyErr
  | allStrategiesFailed (e1 e2 e3 : PyErr) : PyErr
  | cleanupFailed (path : String) : PyErr
  | userError (tag : String) : PyErr
deriving DecidableEq, Repr

/-- The teardown strategies of the spec, plus the bare shutil.rmtree call used
by the non-Windows branch of PlatformAdapter.safe_rmtree. -/
inductive Strategy : Type where
  | NATIVE_RMTREE : Strategy
  | RETRY_STANDARD : Strategy
  | FORCE_ATTRIBUTE : Strategy
  | MANUAL_RECURSIVE : Strategy
deriving DecidableEq, Repr

/-- Ghost observation of one successful removal performed on the filesystem.
Paths are lists of components. -/
inductive Event : Type where
  | removedFile (path : List String) : Event
  | removedDir (path : List String) : Event
deriving DecidableEq, Repr

/-- The _cleanup_stats dictionary of WindowsFileSystemCleaner. -/
structure Stats : Type where
  files_removed : Nat
  dirs_removed : Nat
  retries_used : Nat
  errors_encountered : Nat
deriving DecidableEq, Repr

def Stats.zero : Stats := ⟨0, 0, 0, 0⟩

def Stats.bumpFiles (s : Stats) : Stats := { s with files_removed := s.files_removed + 1 }

def Stats.bumpDirs (s : Stats) : Stats := { s with dirs_removed := s.dirs_removed + 1 }

def Stats.bumpRetries (s : Stats) : Stats := { s with retries_used := s.retries_used + 1 }

def Stats.bumpErrors (s : Stats) : Stats := { s with errors_encountered := s.errors_encountered + 1 }

/-- Configuration of WindowsFileSystemCleaner (constructor arguments).
retry_delay only determines how long each time.sleep lasts and is not needed
for any logical statement; sleep counts are reported instead. -/
structure CleanerConfig : Type where
  max_retries : Nat
  max_depth : Nat
deriving DecidableEq, Repr

/-- WindowsFileSystemCleaner() default construction: max_retries=3, max_depth=100. -/
def defaultCleanerConfig : CleanerConfig := ⟨3, 100⟩

/-
_safe_remove_file / _safe_remove_dir (windows_cleanup.py lines 223-249):

    for attempt in range(self.max_retries):
        try:
            os.chmod(file_path, stat.S_IWRITE)
            os.remove(file_path)
            return
        except (PermissionError, FileNotFoundError) as e:
            if attempt == self.max_retries - 1:
                raise
            time.sleep(self.retry_delay)

The environment is summarised by failCount: the first failCount removal
attempts at this entry raise (a PermissionError for files, and the analogous
retryable error for directories), after which removal succeeds.  os.chmod
itself is modelled as succeeding.  The loop is embedded with the number of
loop iterations still available as the structural argument; `a` is the
current value of `attempt`.  It returns (result, attempts made, sleeps made).
-/
def remove_attempt_go (err : PyErr) (failCount : Nat) :
    Nat → Nat → Except PyErr Unit × Nat × Nat
  | 0, _ => (.ok (), 0, 0)
  | remaining + 1, a =>
    if failCount ≤ a then (.ok (), 1, 0)
    else if remaining = 0 then (.error err, 1, 0)
    else
      let r := remove_attempt_go err failCount remaining (a + 1)
      (r.1, r.2.1 + 1, r.2.2 + 1)

/-- WindowsFileSystemCleaner._safe_remove_file. -/
def safe_remove_file (cfg : CleanerConfig) (failCount : Nat) :
    Except PyErr Unit × Nat × Nat :=
  remove_attempt_go .permissionError failCount cfg.max_retries 0

/-- WindowsFileSystemCleaner._safe_remove_dir (identical loop; it catches
PermissionError and OSError and performs no chmod). -/
def safe_remove_dir (cfg : CleanerConfig) (failCount : Nat) :
    Except PyErr Unit × Nat × Nat :=
  remove_attempt_go .permissionError failCount cfg.max_retries 0

/-
The filesystem.  An entry is a regular file or a directory; each carries the
failure behaviour the environment inflicts on the operations touching it:

  * file name failCount — the first failCount os.remove/os.unlink attempts at
    this file raise a retryable error, after which removal succeeds;
  * dir name rmdirFailCount listable children — once the directory is empty,
    the first rmdirFailCount os.rmdir attempts raise, after which removal
    succeeds; os.rmdir on a non-empty directory always raises; if listable is
    false, os.listdir/os.scandir raises a PermissionError persistently.

Failure counts reset at the start of each strategy pass (they describe how
many attempts of one removal loop fail).  A mutually inductive list type is
used so that all recursions are structural.
-/
mutual
inductive Entry : Type where
  | file (name : String) (failCount : Nat) : Entry
  | dir (name : String) (rmdirFailCount : Nat) (listable : Bool)
      (children : EntryList) : Entry
inductive EntryList : Type where
  | nil : EntryList
  | cons (e : Entry) (rest : EntryList) : EntryList
end

/-- Cons an optional leftover entry onto a list of entries. -/
def consOpt : Option Entry → EntryList → EntryList
  | none, l => l
  | some e, l => .cons e l

/- True when every removal operation in the tree eventually succeeds within
the given retry budget: every file needs at most mr attempts, every rmdir
needs at most mr attempts, and every directory can be listed. -/
mutual
def Entry.removable (mr : Nat) : Entry → Bool
  | .file _ fc => fc < mr
  | .dir _ rfc listable children =>
      decide (rfc < mr) && listable && EntryList.removable mr children
def EntryList.removable (mr : Nat) : EntryList → Bool
  | .nil => true
  | .cons e rest => Entry.removable mr e && EntryList.removable mr rest
end

/- Depth of the deepest recursive _manual_rmtree invocation caused by this
entry, relative to the invocation on the entry itself.  Only directory
children cause recursive invocations (file children are removed in place). -/
mutual
def Entry.invDepth : Entry → Nat
  | .file _ _ => 0
  | .dir _ _ _ children => EntryList.invDepthAux children
def EntryList.invDepthAux : EntryList → Nat
  | .nil => 0
  | .cons (.file _ _) rest => EntryList.invDepthAux rest
  | .cons (.dir n rfc lb cs) rest =>
      max (1 + Entry.invDepth (.dir n rfc lb cs)) (EntryList.invDepthAux rest)
end

/- The post-order removal trace of a tree rooted at path p: every child is
removed before its parent directory, children in list order. -/
mutual
def Entry.postorder : Entry → List String → List Event
  | .file _ _, p => [.removedFile p]
  | .dir _ _ _ children, p => EntryList.postorderAux children p ++ [.removedDir p]
def EntryList.postorderAux : EntryList → List String → List Event
  | .nil, _ => []
  | .cons (.file n _) rest, p =>
      .removedFile (p ++ [n]) :: EntryList.postorderAux rest p
  | .cons (.dir n rfc lb cs) rest, p =>
      Entry.postorder (.dir n rfc lb cs) (p ++ [n]) ++ EntryList.postorderAux rest p
end

/-- Result of one _manual_rmtree invocation: the Python result (return or
raise), what remains of the processed entry, the statistics counters after
the call, the removal events performed, and the ghost observation of the
largest current_depth value among this invocation and all its recursive
invocations. -/
structure MRes : Type where
  result : Except PyErr Unit
  remaining : Option Entry
  stats : Stats
  trace : List Event
  maxEntered : Nat

/-- Result of the children loop of _manual_rmtree (lines 207-218). -/
structure MLRes : Type where
  result : Except PyErr Unit
  remaining : EntryList
  stats : Stats
  trace : List Event
  maxEntered : Nat

/-
WindowsFileSystemCleaner._manual_rmtree (windows_cleanup.py lines 186-221):

    if current_depth > self.max_depth: raise WindowsCleanupError(...)
    if not os.path.exists(path): return          -- top-level wrapper below
    if os.path.isfile(path): self._safe_remove_file(path); return
    try: entries = os.listdir(path)
    except (PermissionError, FileNotFoundError): return
    for entry in entries:
        if os.path.isdir(entry_path):
            self._manual_rmtree(entry_path, current_depth + 1)
            self._cleanup_stats['dirs_removed'] += 1
        else:
            self._safe_remove_file(entry_path)
            self._cleanup_stats['files_removed'] += 1
    self._safe_remove_dir(path)

p is the path of the entry itself; children live at p ++ [child name].
Any exception raised while processing a child propagates immediately, leaving
the directory with the partially processed child list.
-/
mutual
def manualRmtree (cfg : CleanerConfig) (e : Entry) (p : List String)
    (depth : Nat) (st : Stats) : MRes :=
  if depth > cfg.max_depth then
    ⟨.error (.depthLimitExceeded p), some e, st, [], depth⟩
  else
    match e with
    | .file n fc =>
        match (safe_remove_file cfg fc).1 with
        | .ok _ => ⟨.ok (), none, st, [.removedFile p], depth⟩
        | .error err => ⟨.error err, some (.file n fc), st, [], depth⟩
    | .dir n rfc listable children =>
        if listable then
          let rc := manualRmtreeChildren cfg children p depth st
          match rc.result with
          | .error err =>
              ⟨.error err, some (.dir n rfc listable rc.remaining), rc.stats,
                rc.trace, max depth rc.maxEntered⟩
          | .ok _ =>
              match rc.remaining with
              | .nil =>
                  match (safe_remove_dir cfg rfc).1 with
                  | .ok _ =>
                      ⟨.ok (), none, rc.stats, rc.trace ++ [.removedDir p],
                        max depth rc.maxEntered⟩
                  | .error err =>
                      ⟨.error err, some (.dir n rfc listable .nil), rc.stats,
                        rc.trace, max depth rc.maxEntered⟩
              | rest =>
                  -- children reported success but something was left behind
                  -- (possible only via an unlistable child directory);
                  -- os.rmdir on the non-empty directory fails every attempt
                  ⟨.error .osError, some (.dir n rfc listable rest), rc.stats,
                    rc.trace, max depth rc.maxEntered⟩
        else
          -- os.listdir raised PermissionError: treated as already removed
          ⟨.ok (), some (.dir n rfc listable children), st, [], depth⟩

def manualRmtreeChildren (cfg : CleanerConfig) (l : EntryList) (p : List String)
    (depth : Nat) (st : Stats) : MLRes :=
  match l with
  | .nil => ⟨.ok (), .nil, st, [], 0⟩
  | .cons c rest =>
      match c with
      | .file n fc =>
          match (safe_remove_file cfg fc).1 with
          | .ok _ =>
              let rr := manualRmtreeChildren cfg rest p depth st.bumpFiles
              ⟨rr.result, rr.remaining, rr.stats,
                .removedFile (p ++ [n]) :: rr.trace, rr.maxEntered⟩
          | .error err => ⟨.error err, .cons c rest, st, [], 0⟩
      | .dir n' rfc' lb' cs' =>
          let rc := manualRmtree cfg (.dir n' rfc' lb' cs') (p ++ [n'])
            (depth + 1) st
          match rc.result with
          | .error err =>
              ⟨.error err, consOpt rc.remaining rest, rc.stats, rc.trace,
                rc.maxEntered⟩
          | .ok _ =>
              let rr := manualRmtreeChildren cfg rest p depth rc.stats.bumpDirs
              ⟨rr.result, consOpt rc.remaining rr.remaining, rr.stats,
                rc.trace ++ rr.trace, max rc.maxEntered rr.maxEntered⟩
end

/-- Strategy 3 as called from safe_rmtree: _manual_rmtree(path, 0).  A missing
path returns immediately with success (line 192-193). -/
def manual_rmtree_top (cfg : CleanerConfig) (fs : Option Entry)
    (p : List String) (st : Stats) : MRes :=
  match fs with
  | none => ⟨.ok (), none, st, [], 0⟩
  | some e => manualRmtree cfg e p 0 st

/-
shutil.rmtree with an onerror handler, as used by strategies 1 and 2.  When
an operation of the walk fails, CPython invokes the handler with that
operation; a handler that returns makes rmtree continue with the remaining
entries, a handler that raises aborts the whole call.  The two handlers of
windows_cleanup.py (retry_on_error of _rmtree_with_retries, and
force_remove_readonly of _force_rmtree) are summarised by their outcome on a
failing operation site: either the operation eventually succeeded inside the
handler, or the handler returned without the operation succeeding, or the
handler raised.
-/
inductive HandlerOutcome : Type where
  | removedNow (bumpRetries : Bool) : HandlerOutcome
  | handledLeft : HandlerOutcome
  | raised (e : PyErr) : HandlerOutcome
deriving DecidableEq, Repr

/-- An onerror handler, summarised by its outcome on a site whose operation
fails the first fc attempts (invoked only when fc ≥ 1), and on a site whose
operation fails persistently. -/
structure ErrHandler : Type where
  onFail : Nat → HandlerOutcome
  onPersistent : HandlerOutcome

/-
retry_on_error (windows_cleanup.py lines 110-146): all errors raised by our
environment are retryable (PermissionError / FileNotFoundError / OSError), so
the handler loops attempt in range(max_retries): sleep, chmod (ignoring
chmod errors), retry func(path); on success it increments retries_used once
and returns; exhausting the loop re-raises the last error.  Since rmtree made
the first attempt, the site whose operation fails the first fc attempts
succeeds inside the handler exactly when fc ≤ max_retries.  When
max_retries = 0 the loop body never runs and the handler returns without
having retried, which makes rmtree continue with the entry left in place.
-/
def retryHandler (mr : Nat) : ErrHandler where
  onFail := fun fc =>
    if mr = 0 then .handledLeft
    else if fc ≤ mr then .removedNow true
    else .raised .permissionError
  onPersistent := if mr = 0 then .handledLeft else .raised .osError

/-- force_remove_readonly (windows_cleanup.py lines 153-161): chmod the path
writable and retry the operation exactly once; if the retry fails, re-raise.
So a site failing the first fc attempts is removed when fc ≤ 1. -/
def forceHandler : ErrHandler where
  onFail := fun fc =>
    if fc ≤ 1 then .removedNow false else .raised .permissionError
  onPersistent := .raised .osError

/-- One removal operation under shutil.rmtree: the first attempt is made by
rmtree itself; a failure (fc ≥ 1) is given to the onerror handler. -/
def opWithOnerror (h : ErrHandler) (fc : Nat) : HandlerOutcome :=
  if fc = 0 then .removedNow false else h.onFail fc

/-- Result of one shutil.rmtree call (with onerror handler) on an entry. -/
structure RWRes : Type where
  result : Except PyErr Unit
  remaining : Option Entry
  stats : Stats
  trace : List Event

/-- Result of the rmtree walk over a list of sibling entries. -/
structure RWLRes : Type where
  result : Except PyErr Unit
  remaining : EntryList
  stats : Stats
  trace : List Event

def Stats.bumpRetriesIf (b : Bool) (s : Stats) : Stats :=
  if b then s.bumpRetries else s

/-
shutil.rmtree(path, onerror=handler) over our filesystem (CPython
_rmtree_unsafe): scan the directory (a scan failure goes to the handler and,
if handled, the entry list is treated as empty); recurse into child
directories, unlink child files (a failure goes to the handler; if handled,
rmtree continues with the remaining siblings); finally os.rmdir the
directory, which fails persistently while the directory is not empty.
Called on a regular file, os.scandir raises NotADirectoryError persistently.
-/
mutual
def rmtreeEntry (h : ErrHandler) (e : Entry) (p : List String) (st : Stats) :
    RWRes :=
  match e with
  | .file n fc =>
      match h.onPersistent with
      | .raised err => ⟨.error err, some (.file n fc), st, []⟩
      | _ => ⟨.ok (), some (.file n fc), st, []⟩
  | .dir n rfc listable children =>
      if listable then
        let rc := rmtreeChildren h children p st
        match rc.result with
        | .error err =>
            ⟨.error err, some (.dir n rfc listable rc.remaining), rc.stats,
              rc.trace⟩
        | .ok _ =>
            match rc.remaining with
            | .nil =>
                match opWithOnerror h rfc with
                | .removedNow b =>
                    ⟨.ok (), none, rc.stats.bumpRetriesIf b,
                      rc.trace ++ [.removedDir p]⟩
                | .handledLeft =>
                    ⟨.ok (), some (.dir n rfc listable .nil), rc.stats,
                      rc.trace⟩
                | .raised err =>
                    ⟨.error err, some (.dir n rfc listable .nil), rc.stats,
                      rc.trace⟩
            | rest =>
                -- os.rmdir on a non-empty directory fails persistently
                match h.onPersistent with
                | .raised err =>
                    ⟨.error err, some (.dir n rfc listable rest), rc.stats,
                      rc.trace⟩
                | _ =>
                    ⟨.ok (), some (.dir n rfc listable rest), rc.stats,
                      rc.trace⟩
      else
        match h.onPersistent with
        | .raised err => ⟨.error err, some (.dir n rfc listable children), st, []⟩
        | _ =>
            -- scan failure handled: entries treated as empty, then os.rmdir
            match children with
            | .nil =>
                match opWithOnerror h rfc with
                | .removedNow b =>
                    ⟨.ok (), none, st.bumpRetriesIf b, [.removedDir p]⟩
                | .handledLeft =>
                    ⟨.ok (), some (.dir n rfc listable .nil), st, []⟩
                | .raised err =>
                    ⟨.error err, some (.dir n rfc listable .nil), st, []⟩
            | _ =>
                match h.onPersistent with
                | .raised err =>
                    ⟨.error err, some (.dir n rfc listable children), st, []⟩
                | _ => ⟨.ok (), some (.dir n rfc listable children), st, []⟩

def rmtreeChildren (h : ErrHandler) (l : EntryList) (p : List String)
    (st : Stats) : RWLRes :=
  match l with
  | .nil => ⟨.ok (), .nil, st, []⟩
  | .cons c rest =>
      match c with
      | .file n fc =>
          match opWithOnerror h fc with
          | .removedNow b =>
              let rr := rmtreeChildren h rest p (st.bumpRetriesIf b)
              ⟨rr.result, rr.remaining, rr.stats,
                .removedFile (p ++ [n]) :: rr.trace⟩
          | .handledLeft =>
              let rr := rmtreeChildren h rest p st
              ⟨rr.result, .cons (.file n fc) rr.remaining, rr.stats, rr.trace⟩
          | .raised err => ⟨.error err, .cons (.file n fc) rest, st, []⟩
      | .dir n' rfc' lb' cs' =>
          let rc := rmtreeEntry h (.dir n' rfc' lb' cs') (p ++ [n']) st
          match rc.result with
          | .error err =>
              ⟨.error err, consOpt rc.remaining rest, rc.stats, rc.trace⟩
          | .ok _ =>
              let rr := rmtreeChildren h rest p rc.stats
              ⟨rr.result, consOpt rc.remaining rr.remaining, rr.stats,
                rc.trace ++ rr.trace⟩
end

/-- WindowsFileSystemCleaner._rmtree_with_retries (lines 108-148):
shutil.rmtree with the retry_on_error handler. -/
def rmtree_with_retries (cfg : CleanerConfig) (e : Entry) (p : List String)
    (st : Stats) : RWRes :=
  rmtreeEntry (retryHandler cfg.max_retries) e p st

/-
Pass A of _force_rmtree (lines 163-181): os.walk(path, topdown=False) over
the tree, chmod-ing every file and directory it yields writable, incrementing
files_removed for every file and dirs_removed for every directory whose
chmod succeeds (chmod is modelled as succeeding).  os.walk never yields the
root directory itself in a dirs list, silently skips directories it cannot
list (their contents are not visited, though the unlistable directory itself
is still counted at its parent), and yields nothing when called on a file.
-/
mutual
def passACount : Entry → Stats → Stats
  | .file _ _, st => st
  | .dir _ _ false _, st => st
  | .dir _ _ true children, st => passACountChildren children st
def passACountChildren : EntryList → Stats → Stats
  | .nil, st => st
  | .cons (.file _ _) rest, st => passACountChildren rest st.bumpFiles
  | .cons (.dir n rfc lb cs) rest, st =>
      passACountChildren rest (Stats.bumpDirs (passACount (.dir n rfc lb cs) st))
end

/-- WindowsFileSystemCleaner._force_rmtree (lines 150-184): pass A makes
everything writable (updating the counters), then pass B re-invokes
shutil.rmtree with the force_remove_readonly handler.  On a missing path
pass A walks nothing and pass B raises FileNotFoundError. -/
def force_rmtree (_cfg : CleanerConfig) (fs : Option Entry) (p : List String)
    (st : Stats) : RWRes :=
  match fs with
  | none => ⟨.error .fileNotFoundError, none, st, []⟩
  | some e => rmtreeEntry forceHandler e p (passACount e st)

/-- Result of WindowsFileSystemCleaner.safe_rmtree: the returned bool or the
raised exception, the remaining filesystem, the statistics counters, the
removal events performed, and which strategies were attempted. -/
structure SRRes : Type where
  result : Except PyErr Bool
  remaining : Option Entry
  stats : Stats
  trace : List Event
  tried : List Strategy

/-
WindowsFileSystemCleaner.safe_rmtree (lines 53-106): return True immediately
if the path does not exist; otherwise try _rmtree_with_retries, then
_force_rmtree, then _manual_rmtree(path, 0), returning True as soon as one
returns; if all three raise, increment errors_encountered and either return
False (ignore_errors) or raise WindowsCleanupError carrying all three
failures.  Entries already removed by a failed strategy stay removed: each
strategy operates on what the previous one left behind.
-/
def WindowsFileSystemCleaner.safe_rmtree (cfg : CleanerConfig)
    (fs : Option Entry) (p : List String) (ignore_errors : Bool) (st : Stats) :
    SRRes :=
  match fs with
  | none => ⟨.ok true, none, st, [], []⟩
  | some e0 =>
      let r1 := rmtree_with_retries cfg e0 p st
      match r1.result with
      | .ok _ => ⟨.ok true, r1.remaining, r1.stats, r1.trace, [.RETRY_STANDARD]⟩
      | .error e1 =>
          let r2 := force_rmtree cfg r1.remaining p r1.stats
          match r2.result with
          | .ok _ =>
              ⟨.ok true, r2.remaining, r2.stats, r1.trace ++ r2.trace,
                [.RETRY_STANDARD, .FORCE_ATTRIBUTE]⟩
          | .error e2 =>
              let r3 := manual_rmtree_top cfg r2.remaining p r2.stats
              match r3.result with
              | .ok _ =>
                  ⟨.ok true, r3.remaining, r3.stats,
                    r1.trace ++ r2.trace ++ r3.trace,
                    [.RETRY_STANDARD, .FORCE_ATTRIBUTE, .MANUAL_RECURSIVE]⟩
              | .error e3 =>
                  if ignore_errors then
                    ⟨.ok false, r3.remaining, r3.stats.bumpErrors,
                      r1.trace ++ r2.trace ++ r3.trace,
                      [.RETRY_STANDARD, .FORCE_ATTRIBUTE, .MANUAL_RECURSIVE]⟩
                  else
                    ⟨.error (.allStrategiesFailed e1 e2 e3), r3.remaining,
                      r3.stats.bumpErrors, r1.trace ++ r2.trace ++ r3.trace,
                      [.RETRY_STANDARD, .FORCE_ATTRIBUTE, .MANUAL_RECURSIVE]⟩

/-- Result of PlatformAdapter.safe_rmtree: the returned bool or raised
exception, and which removal mechanisms were invoked. -/
structure PARes : Type where
  result : Except PyErr Bool
  tried : List Strategy

/-
A bare shutil.rmtree(path) call followed by the except-Exception handler of
platform_utils.py (lines 352-360 and 368-375): on a missing path
shutil.rmtree raises FileNotFoundError; on an existing path the call either
removes the tree or raises, which is summarised by the rmtreeFailure oracle
(none means success).  Any exception is caught and turned into False when
ignore_errors is set, and re-raised otherwise.
-/
def plainRmtreeBranch (fs : Option Entry) (rmtreeFailure : Option PyErr)
    (ignore_errors : Bool) : PARes :=
  match fs with
  | none =>
      if ignore_errors then ⟨.ok false, [.NATIVE_RMTREE]⟩
      else ⟨.error .fileNotFoundError, [.NATIVE_RMTREE]⟩
  | some _ =>
      match rmtreeFailure with
      | none => ⟨.ok true, [.NATIVE_RMTREE]⟩
      | some err =>
          if ignore_errors then ⟨.ok false, [.NATIVE_RMTREE]⟩
          else ⟨.error err, [.NATIVE_RMTREE]⟩

/-
PlatformAdapter.safe_rmtree (platform_utils.py lines 345-375): on
non-Windows hosts, a single standard shutil.rmtree with no fallback; on
Windows, safe_windows_rmtree, which constructs a fresh
WindowsFileSystemCleaner() (default configuration, zeroed statistics) and
runs the three-strategy chain; if the windows_cleanup module cannot be
imported, the same bare-rmtree fallback as on non-Windows.
-/
def PlatformAdapter.safe_rmtree (isWindows winModuleAvailable : Bool)
    (fs : Option Entry) (p : List String) (rmtreeFailure : Option PyErr)
    (ignore_errors : Bool) : PARes :=
  if isWindows then
    if winModuleAvailable then
      let r := WindowsFileSystemCleaner.safe_rmtree defaultCleanerConfig fs p
        ignore_errors Stats.zero
      ⟨r.result, r.tried⟩
    else plainRmtreeBranch fs rmtreeFailure ignore_errors
  else plainRmtreeBranch fs rmtreeFailure ignore_errors

/-- Outcome of running a Python block: either a value or a raised exception. -/
inductive BodyOutcome (α : Type) : Type where
  | ret (a : α) : BodyOutcome α
  | exc (e : PyErr) : BodyOutcome α
deriving DecidableEq, Repr

/-- A recorded invocation of platform_adapter.safe_rmtree: the path passed
and the ignore_errors flag used. -/
structure TeardownCall : Type where
  path : String
  ignore_errors : Bool
deriving DecidableEq, Repr

/-
safe_temp_directory (safe_temp.py lines 19-58).  The generator is run to
completion under a with-statement: the try block creates the directory and
yields it to the protected body; an exception from the body is re-raised
unchanged by the except clause; the finally block, when auto_cleanup is set,
the directory was created and still exists, calls
platform_adapter.safe_rmtree(temp_dir, ignore_errors=True) inside its own
try/except, so that every outcome of the cleanup call (True, False, or an
exception, distinguished only by what gets logged) leaves the in-flight
control flow untouched.  createResult is what create_safe_tempdir does,
existsAtExit is the os.path.exists check of line 50, and rmtreeResult is the
outcome of the safe_rmtree call.  Returned: the overall outcome of the
with-block, and the teardown invocations performed.
-/
def safe_temp_directory_run {α : Type} (createResult : Except PyErr String)
    (body : String → BodyOutcome α) (auto_cleanup existsAtExit : Bool)
    (rmtreeResult : Except PyErr Bool) : BodyOutcome α × List TeardownCall :=
  match createResult with
  | .error e => (.exc e, [])
  | .ok temp_dir =>
      let outcome := body temp_dir
      if auto_cleanup && existsAtExit then
        match rmtreeResult with
        | .ok true => (outcome, [⟨temp_dir, true⟩])   -- success: logged debug
        | .ok false => (outcome, [⟨temp_dir, true⟩])  -- failure: logged warning
        | .error _ => (outcome, [⟨temp_dir, true⟩])   -- exception: caught, logged error
      else (outcome, [])

/-- The mutable state of a SafeTemporaryDirectory handle (safe_temp.py lines
61-133): the ignore_cleanup_errors flag and the name field (None when not yet
created or already cleaned up). -/
structure SafeTemporaryDirectory : Type where
  ignore_cleanup_errors : Bool
  name : Option String
deriving DecidableEq, Repr

/-- Result of SafeTemporaryDirectory.cleanup: the Python outcome (return or
raise), the handle state afterwards, and the teardown invocations made. -/
structure CleanupRes : Type where
  result : Except PyErr Unit
  post : SafeTemporaryDirectory
  calls : List TeardownCall

/-
SafeTemporaryDirectory.cleanup (lines 105-128): return immediately when name
is None; otherwise call platform_adapter.safe_rmtree(name,
ignore_errors=self.ignore_cleanup_errors); a False result raises OSError
when ignore_cleanup_errors is unset and is merely logged otherwise; an
exception from the call is re-raised when ignore_cleanup_errors is unset and
logged otherwise; the finally block sets name to None in every case.
rmtreeResult is the outcome of the safe_rmtree call.
-/
def SafeTemporaryDirectory.cleanup (h : SafeTemporaryDirectory)
    (rmtreeResult : Except PyErr Bool) : CleanupRes :=
  match h.name with
  | none => ⟨.ok (), h, []⟩
  | some nm =>
      let post : SafeTemporaryDirectory := { h with name := none }
      let call : TeardownCall := ⟨nm, h.ignore_cleanup_errors⟩
      match rmtreeResult with
      | .ok true => ⟨.ok (), post, [call]⟩
      | .ok false =>
          if h.ignore_cleanup_errors then ⟨.ok (), post, [call]⟩
          else ⟨.error (.cleanupFailed nm), post, [call]⟩
      | .error e =>
          if h.ignore_cleanup_errors then ⟨.ok (), post, [call]⟩
          else ⟨.error e, post, [call]⟩

/-
A with-statement over a SafeTemporaryDirectory whose creation succeeded:
__enter__ sets name to the created path and hands it to the body; __exit__
calls cleanup() and returns None, so a body exception propagates unless
cleanup itself raises during __exit__ (in which case the cleanup exception
replaces it, per Python semantics); with the default
ignore_cleanup_errors=True, cleanup never raises.
-/
def SafeTemporaryDirectory.with_run {α : Type} (createdPath : String)
    (ignore_cleanup_errors : Bool) (body : String → BodyOutcome α)
    (rmtreeResult : Except PyErr Bool) : BodyOutcome α × List TeardownCall :=
  let h : SafeTemporaryDirectory := ⟨ignore_cleanup_errors, some createdPath⟩
  let c := h.cleanup rmtreeResult
  match body createdPath, c.result with
  | _, .error ce => (.exc ce, c.calls)
  | .exc e, .ok _ => (.exc e, c.calls)
  | .ret a, .ok _ => (.ret a, c.calls)

/-- The mutable state of a SafeTempDir handle (safe_temp.py lines 136-204). -/
structure SafeTempDir : Type where
  temp_dir : Option String
deriving DecidableEq, Repr

/-
SafeTempDir.cleanup (lines 169-191): return True immediately when temp_dir is
None; otherwise call platform_adapter.safe_rmtree(temp_dir,
ignore_errors=True), clear temp_dir and return the call's boolean; if the
call raises, the exception is caught, False is returned and temp_dir is NOT
cleared.  The method itself never raises.
-/
def SafeTempDir.cleanup (h : SafeTempDir) (rmtreeResult : Except PyErr Bool) :
    Bool × SafeTempDir × List TeardownCall :=
  match h.temp_dir with
  | none => (true, h, [])
  | some nm =>
      match rmtreeResult with
      | .ok b => (b, ⟨none⟩, [⟨nm, true⟩])
      | .error _ => (false, h, [⟨nm, true⟩])

/-- Number of files actually removed in a trace of removal events. -/
def countRemovedFiles : List Event → Nat
  | [] => 0
  | .removedFile _ :: rest => countRemovedFiles rest + 1
  | .removedDir _ :: rest => countRemovedFiles rest

/-- Number of directories actually removed in a trace of removal events. -/
def countRemovedDirs : List Event → Nat
  | [] => 0
  | .removedFile _ :: rest => countRemovedDirs rest
  | .removedDir _ :: rest => countRemovedDirs rest + 1

/-
Theorems.  Helper lemmas come first; the theorem settling claim Ci is named
Ci_... and is stated over the embedded definitions above.
-/

/-- When the removal starts succeeding within the remaining loop budget, the
retry loop returns successfully after failCount + 1 - a attempts with a sleep
between consecutive attempts. -/
theorem remove_attempt_go_ok (err : PyErr) (fc : Nat) :
    ∀ remaining a : Nat, 1 ≤ remaining → fc < a + remaining →
      remove_attempt_go err fc remaining a =
        (.ok (), fc - a + 1, fc - a) := by
  intro remaining
  induction remaining with
  | zero => intro a h _; omega
  | succ k ih =>
      intro a _ hlt
      by_cases hfa : fc ≤ a
      · have h0 : fc - a = 0 := by omega
        simp only [remove_attempt_go, if_pos hfa, h0]
      · have hk : 1 ≤ k := by omega
        have hk0 : ¬ (k = 0) := by omega
        have hr := ih (a + 1) hk (by omega)
        simp [remove_attempt_go, if_neg hfa, if_neg hk0, hr, Prod.ext_iff]
        omega

/-- When the removal keeps failing for the whole remaining loop budget, the
retry loop raises on the final attempt, after `remaining` attempts. -/
theorem remove_attempt_go_err (err : PyErr) (fc : Nat) :
    ∀ remaining a : Nat, 1 ≤ remaining → a + remaining ≤ fc →
      remove_attempt_go err fc remaining a =
        (.error err, remaining, remaining - 1) := by
  intro remaining
  induction remaining with
  | zero => intro a h _; omega
  | succ k ih =>
      intro a _ hge
      have hfa : ¬ (fc ≤ a) := by omega
      by_cases hk0 : k = 0
      · subst hk0
        simp [remove_attempt_go, if_neg hfa]
      · have hr := ih (a + 1) (by omega) (by omega)
        simp [remove_attempt_go, if_neg hfa, if_neg hk0, hr, Prod.ext_iff]
        omega

/-- C7 (amended): in _safe_remove_file the attribute is cleared before every
attempt and removal is attempted at most max_retries times in total (the
first attempt plus up to max_retries - 1 retries, with a retry_delay sleep
between consecutive attempts, so attempts - 1 sleeps); a file whose removal
starts succeeding within that budget is removed after failCount + 1
attempts, and a file still failing on the max_retries-th attempt raises for
that file after exactly max_retries attempts — never 1 + max_retries. -/
theorem C7_safe_remove_file_retry_budget :
    ∀ (cfg : CleanerConfig) (fc : Nat), 1 ≤ cfg.max_retries →
      (fc < cfg.max_retries →
        safe_remove_file cfg fc = (.ok (), fc + 1, fc))
      ∧ (cfg.max_retries ≤ fc →
        safe_remove_file cfg fc =
          (.error .permissionError, cfg.max_retries, cfg.max_retries - 1))
      ∧ (safe_remove_file cfg fc).2.1 ≤ cfg.max_retries := by
  intro cfg fc h1
  refine ⟨?_, ?_, ?_⟩
  · intro hlt
    have := remove_attempt_go_ok .permissionError fc cfg.max_retries 0 h1
      (by omega)
    simpa [safe_remove_file] using this
  · intro hge
    have := remove_attempt_go_err .permissionError fc cfg.max_retries 0 h1
      (by omega)
    simpa [safe_remove_file] using this
  · by_cases hlt : fc < cfg.max_retries
    · have := remove_attempt_go_ok .permissionError fc cfg.max_retries 0 h1
        (by omega)
      simp [safe_remove_file, this]
      omega
    · have := remove_attempt_go_err .permissionError fc cfg.max_retries 0 h1
        (by omega)
      simp [safe_remove_file, this]

/-- C7 witness: with the default max_retries = 3, a file whose first removal
attempt fails is removed on the second attempt (one retry, one sleep). -/
theorem C7_safe_remove_file_retry_budget_witness :
    safe_remove_file defaultCleanerConfig 1 = (.ok (), 2, 1) :=
  (C7_safe_remove_file_retry_budget defaultCleanerConfig 1 (by decide)).1
    (by decide)

/-- C7 counterexample: with max_retries = 3, a file that fails exactly 3
removal attempts (and so would succeed on the 4th, within the claimed budget
of 1 + max_retries = 4 attempts) is raised on after only 3 attempts instead
of being removed. -/
theorem C7_counterexample_attempt_count :
    safe_remove_file defaultCleanerConfig 3 =
      (.error .permissionError, 3, 2)
    ∧ 3 < 1 + defaultCleanerConfig.max_retries := ⟨rfl, by decide⟩

/-- C8: cleanup on an already-torn-down handle is a no-op: it returns
successfully, leaves the handle unchanged, and invokes no teardown call,
both for SafeTemporaryDirectory.cleanup and for SafeTempDir.cleanup,
whatever the (unreached) teardown outcome would have been. -/
theorem C8_double_cleanup_noop :
    (∀ (ign : Bool) (r : Except PyErr Bool),
      SafeTemporaryDirectory.cleanup ⟨ign, none⟩ r =
        ⟨.ok (), ⟨ign, none⟩, []⟩)
    ∧ (∀ r : Except PyErr Bool,
      SafeTempDir.cleanup ⟨none⟩ r = (true, ⟨none⟩, [])) :=
  ⟨fun _ _ => rfl, fun _ => rfl⟩

/-- C10: SafeTemporaryDirectory.cleanup always leaves name = None — also
when the underlying teardown returned False or raised — so any later
cleanup (explicit close, context exit, or the finalizer, all of which go
through cleanup) performs no further teardown call and returns successfully:
teardown of a handle's directory is attempted at most once. -/
theorem C10_cleanup_clears_name :
    ∀ (h : SafeTemporaryDirectory) (r r2 : Except PyErr Bool),
      (h.cleanup r).post.name = none
      ∧ ((h.cleanup r).post.cleanup r2).calls = []
      ∧ ((h.cleanup r).post.cleanup r2).result = .ok () := by
  intro h r r2
  obtain ⟨ign, name⟩ := h
  cases name with
  | none => exact ⟨rfl, rfl, rfl⟩
  | some nm =>
      cases r with
      | ok b => cases b <;> cases ign <;> exact ⟨rfl, rfl, rfl⟩
      | error e => cases ign <;> exact ⟨rfl, rfl, rfl⟩

/-- C3: when the protected body of a scoped temporary directory raises, the
exception reaches the caller unchanged, teardown is still invoked exactly
once with ignore_errors=true (the defaults), and every possible outcome of
that teardown call — success, failure, or an exception of its own — leaves
the propagating body exception untouched; this holds for the
safe_temp_directory context manager and for a with-statement over a
SafeTemporaryDirectory with its default ignore_cleanup_errors=True. -/
theorem C3_body_exception_propagates :
    (∀ (α : Type) (p : String) (e : PyErr) (r : Except PyErr Bool),
      safe_temp_directory_run (α := α) (.ok p) (fun _ => .exc e) true true r =
        (.exc e, [⟨p, true⟩]))
    ∧ (∀ (α : Type) (p : String) (e : PyErr) (r : Except PyErr Bool),
      SafeTemporaryDirectory.with_run (α := α) p true (fun _ => .exc e) r =
        (.exc e, [⟨p, true⟩])) := by
  constructor
  · intro α p e r
    cases r with
    | ok b => cases b <;> rfl
    | error _ => rfl
  · intro α p e r
    cases r with
    | ok b => cases b <;> rfl
    | error _ => rfl

/-- C1: evaluation of the embedded code at a nonexistent path.  The Windows
cleaner returns True immediately with no strategy attempted, no removal
event and untouched statistics, for both values of ignore_errors — but the
non-Windows branch of PlatformAdapter.safe_rmtree, which calls the native
recursive delete without an existence check, returns False when
ignore_errors is set and raises FileNotFoundError otherwise, contradicting
the claim (and the repository's own test_safe_rmtree_nonexistent). -/
theorem C1_nonexistent_path_behaviour :
    (∀ (ign : Bool) (p : List String) (st : Stats),
      WindowsFileSystemCleaner.safe_rmtree defaultCleanerConfig none p ign st =
        ⟨.ok true, none, st, [], []⟩)
    ∧ (∀ ign : Bool,
      PlatformAdapter.safe_rmtree true true none [] none ign =
        ⟨.ok true, []⟩)
    ∧ PlatformAdapter.safe_rmtree false true none [] none true =
        ⟨.ok false, [.NATIVE_RMTREE]⟩
    ∧ PlatformAdapter.safe_rmtree false true none [] none false =
        ⟨.error .fileNotFoundError, [.NATIVE_RMTREE]⟩ :=
  ⟨fun _ _ _ => rfl, fun _ => rfl, rfl, rfl⟩

/-- C6 counterexample: on a non-Windows host, when the native recursive
delete fails (here with a permission error on an existing file), teardown
reports failure (False, since ignore_errors is set) without
MANUAL_RECURSIVE — or any other fallback strategy — ever being invoked,
contradicting the claim that the chain falls through to MANUAL_RECURSIVE
before reporting failure. -/
theorem C6_counterexample_posix_no_manual_fallback :
    (PlatformAdapter.safe_rmtree false true (some (.file "f" 0)) ["f"]
      (some .permissionError) true).result = .ok false
    ∧ Strategy.MANUAL_RECURSIVE ∉
      (PlatformAdapter.safe_rmtree false true (some (.file "f" 0)) ["f"]
        (some .permissionError) true).tried := ⟨rfl, by decide⟩

/-- C6 (amended): on hosts that are not Windows, PlatformAdapter.safe_rmtree
performs exactly one native recursive delete and nothing else: the strategy
chain (and in particular MANUAL_RECURSIVE) is never invoked, and a native
delete failure is reported directly — False when ignore_errors is set, the
native error re-raised otherwise. -/
theorem C6_posix_single_native_delete :
    ∀ (w : Bool) (fs : Option Entry) (p : List String) (o : Option PyErr)
      (ign : Bool),
      (PlatformAdapter.safe_rmtree false w fs p o ign).tried =
        [.NATIVE_RMTREE]
      ∧ (∀ (e : Entry) (err : PyErr),
          (PlatformAdapter.safe_rmtree false w (some e) p (some err)
            true).result = .ok false
          ∧ (PlatformAdapter.safe_rmtree false w (some e) p (some err)
            false).result = .error err) := by
  intro w fs p o ign
  refine ⟨?_, ?_⟩
  · cases fs <;> cases o <;> cases ign <;>
      simp [PlatformAdapter.safe_rmtree, plainRmtreeBranch]
  · intro e err
    exact ⟨rfl, rfl⟩

/-- An invocation of _manual_rmtree above the depth limit aborts immediately:
it raises the depth-limit error without touching the filesystem, the
statistics or the stack (no recursive invocation is made). -/
theorem manualRmtree_depth_guard (cfg : CleanerConfig) (e : Entry)
    (p : List String) (d : Nat) (st : Stats) (h : d > cfg.max_depth) :
    manualRmtree cfg e p d st =
      ⟨.error (.depthLimitExceeded p), some e, st, [], d⟩ := by
  cases e <;> simp [manualRmtree, h]

mutual
theorem manualRmtree_maxEntered_le (cfg : CleanerConfig) (e : Entry)
    (p : List String) (d : Nat) (st : Stats) :
    (manualRmtree cfg e p d st).maxEntered ≤ max d (cfg.max_depth + 1) := by
  by_cases hd : d > cfg.max_depth
  · rw [manualRmtree_depth_guard cfg e p d st hd]
    exact le_max_left _ _
  · cases e with
    | file n fc =>
        cases hf : (safe_remove_file cfg fc).1 <;>
          simp [manualRmtree, hd, hf]
    | dir n rfc lb children =>
        cases lb with
        | false => simp [manualRmtree, hd]
        | true =>
            have hc := manualRmtreeChildren_maxEntered_le cfg children p d st
              (by omega)
            cases hr : (manualRmtreeChildren cfg children p d st).result with
            | error err =>
                simp [manualRmtree, hd, hr]
                omega
            | ok u =>
                cases hrem : (manualRmtreeChildren cfg children p d st).remaining with
                | nil =>
                    cases hsd : (safe_remove_dir cfg rfc).1 <;>
                      · simp [manualRmtree, hd, hr, hrem, hsd]
                        omega
                | cons c rest =>
                    simp [manualRmtree, hd, hr, hrem]
                    omega

theorem manualRmtreeChildren_maxEntered_le (cfg : CleanerConfig)
    (l : EntryList) (p : List String) (d : Nat) (st : Stats)
    (hd : d ≤ cfg.max_depth) :
    (manualRmtreeChildren cfg l p d st).maxEntered ≤ cfg.max_depth + 1 := by
  cases l with
  | nil => simp [manualRmtreeChildren]
  | cons c rest =>
      cases c with
      | file n fc =>
          cases hf : (safe_remove_file cfg fc).1 with
          | ok u =>
              have hr := manualRmtreeChildren_maxEntered_le cfg rest p d
                st.bumpFiles hd
              simp [manualRmtreeChildren, hf]
              exact hr
          | error err => simp [manualRmtreeChildren, hf]
      | dir n' rfc' lb' cs' =>
          have he := manualRmtree_maxEntered_le cfg (.dir n' rfc' lb' cs')
            (p ++ [n']) (d + 1) st
          have he' : (manualRmtree cfg (.dir n' rfc' lb' cs') (p ++ [n'])
              (d + 1) st).maxEntered ≤ cfg.max_depth + 1 :=
            le_trans he (by omega)
          cases hr : (manualRmtree cfg (.dir n' rfc' lb' cs') (p ++ [n'])
              (d + 1) st).result with
          | error err =>
              simp [manualRmtreeChildren, hr]
              omega
          | ok u =>
              have hrest := manualRmtreeChildren_maxEntered_le cfg rest p d
                ((manualRmtree cfg (.dir n' rfc' lb' cs') (p ++ [n'])
                  (d + 1) st).stats.bumpDirs) hd
              simp [manualRmtreeChildren, hr]
              omega
end

/-- C5: MANUAL_RECURSIVE is depth-guarded.  An invocation of _manual_rmtree
at current_depth exceeding max_depth aborts that path immediately with the
depth-limit WindowsCleanupError — no removal, no statistics change, no
recursive call — and consequently, for every input tree (arbitrarily deep),
every invocation reached from a top-level call has current_depth at most
max_depth + 1, the guarded aborting one included; only invocations at depth
at most max_depth ever recurse. -/
theorem C5_depth_guard_bounds_recursion :
    (∀ (cfg : CleanerConfig) (e : Entry) (p : List String) (d : Nat)
        (st : Stats), d > cfg.max_depth →
      manualRmtree cfg e p d st =
        ⟨.error (.depthLimitExceeded p), some e, st, [], d⟩)
    ∧ ∀ (cfg : CleanerConfig) (e : Entry) (p : List String) (st : Stats),
        (manualRmtree cfg e p 0 st).maxEntered ≤ cfg.max_depth + 1 := by
  constructor
  · exact manualRmtree_depth_guard
  · intro cfg e p st
    have h := manualRmtree_maxEntered_le cfg e p 0 st
    omega

/-- C5 witness: with the default max_depth = 100, an invocation at depth 101
aborts immediately with the depth-limit error. -/
theorem C5_depth_guard_bounds_recursion_witness :
    manualRmtree defaultCleanerConfig (.file "x" 0) ["x"] 101 Stats.zero =
      ⟨.error (.depthLimitExceeded ["x"]), some (.file "x" 0), Stats.zero,
        [], 101⟩ :=
  C5_depth_guard_bounds_recursion.1 defaultCleanerConfig (.file "x" 0) ["x"]
    101 Stats.zero (by decide)

mutual
theorem manualRmtree_removable_ok (cfg : CleanerConfig) (e : Entry)
    (p : List String) (d : Nat) (st : Stats)
    (hrem : Entry.removable cfg.max_retries e = true)
    (hdep : d + Entry.invDepth e ≤ cfg.max_depth) :
    (manualRmtree cfg e p d st).result = .ok ()
    ∧ (manualRmtree cfg e p d st).remaining = none
    ∧ (manualRmtree cfg e p d st).trace = Entry.postorder e p := by
  have hd : ¬ (d > cfg.max_depth) := by omega
  cases e with
  | file n fc =>
      have hfc : fc < cfg.max_retries := by
        simpa [Entry.removable] using hrem
      have hok : (safe_remove_file cfg fc).1 = .ok () := by
        have := remove_attempt_go_ok .permissionError fc cfg.max_retries 0
          (by omega) (by omega)
        simp [safe_remove_file, this]
      simp [manualRmtree, hd, hok, Entry.postorder]
  | dir n rfc lb children =>
      have hparts : (rfc < cfg.max_retries ∧ lb = true)
          ∧ EntryList.removable cfg.max_retries children = true := by
        simpa [Entry.removable, Bool.and_eq_true, decide_eq_true_eq]
          using hrem
      obtain ⟨⟨hrfc, hlb⟩, hcrem⟩ := hparts
      subst hlb
      have hcdep : d + EntryList.invDepthAux children ≤ cfg.max_depth := by
        simpa [Entry.invDepth] using hdep
      obtain ⟨hcr, hcrm, hctr⟩ :=
        manualRmtreeChildren_removable_ok cfg children p d st hcrem hcdep
      have hsd : (safe_remove_dir cfg rfc).1 = .ok () := by
        have := remove_attempt_go_ok .permissionError rfc cfg.max_retries 0
          (by omega) (by omega)
        simp [safe_remove_dir, this]
      simp [manualRmtree, hd, hcr, hcrm, hctr, hsd, Entry.postorder]

theorem manualRmtreeChildren_removable_ok (cfg : CleanerConfig)
    (l : EntryList) (p : List String) (d : Nat) (st : Stats)
    (hrem : EntryList.removable cfg.max_retries l = true)
    (hdep : d + EntryList.invDepthAux l ≤ cfg.max_depth) :
    (manualRmtreeChildren cfg l p d st).result = .ok ()
    ∧ (manualRmtreeChildren cfg l p d st).remaining = .nil
    ∧ (manualRmtreeChildren cfg l p d st).trace =
        EntryList.postorderAux l p := by
  cases l with
  | nil => simp [manualRmtreeChildren, EntryList.postorderAux]
  | cons c rest =>
      cases c with
      | file n fc =>
          have hparts : Entry.removable cfg.max_retries (.file n fc) = true
              ∧ EntryList.removable cfg.max_retries rest = true := by
            simpa [EntryList.removable, Bool.and_eq_true] using hrem
          have hfc : fc < cfg.max_retries := by
            simpa [Entry.removable] using hparts.1
          have hok : (safe_remove_file cfg fc).1 = .ok () := by
            have := remove_attempt_go_ok .permissionError fc cfg.max_retries 0
              (by omega) (by omega)
            simp [safe_remove_file, this]
          have hrdep : d + EntryList.invDepthAux rest ≤ cfg.max_depth := by
            simp [EntryList.invDepthAux] at hdep
            omega
          obtain ⟨h1, h2, h3⟩ := manualRmtreeChildren_removable_ok cfg rest p
            d st.bumpFiles hparts.2 hrdep
          simp [manualRmtreeChildren, hok, h1, h2, h3,
            EntryList.postorderAux]
      | dir n' rfc' lb' cs' =>
          have hparts : Entry.removable cfg.max_retries (.dir n' rfc' lb' cs') = true
              ∧ EntryList.removable cfg.max_retries rest = true := by
            simpa [EntryList.removable, Bool.and_eq_true] using hrem
          have hdd : d + EntryList.invDepthAux (.cons (.dir n' rfc' lb' cs') rest)
              = d + max (1 + Entry.invDepth (.dir n' rfc' lb' cs'))
                  (EntryList.invDepthAux rest) := by
            simp [EntryList.invDepthAux]
          rw [hdd] at hdep
          obtain ⟨h1, h2, h3⟩ := manualRmtree_removable_ok cfg
            (.dir n' rfc' lb' cs') (p ++ [n']) (d + 1) st hparts.1
            (by omega)
          obtain ⟨h4, h5, h6⟩ := manualRmtreeChildren_removable_ok cfg rest p
            d ((manualRmtree cfg (.dir n' rfc' lb' cs') (p ++ [n'])
              (d + 1) st).stats.bumpDirs) hparts.2 (by omega)
          simp [manualRmtreeChildren, h1, h2, h3, h4, h5, h6, consOpt,
            EntryList.postorderAux, Entry.postorder]
end

/-- C4: on a tree whose directory nesting stays within max_depth and in
which every individual remove operation succeeds (within the per-operation
retry budget, with every directory listable), MANUAL_RECURSIVE removes every
file and every directory: it returns successfully, leaves nothing at the
original path, and its removal trace is exactly the post-order traversal of
the tree — every child removed before its parent directory. -/
theorem C4_manual_rmtree_removes_everything_postorder :
    ∀ (cfg : CleanerConfig) (e : Entry) (p : List String) (st : Stats),
      Entry.removable cfg.max_retries e = true →
      Entry.invDepth e ≤ cfg.max_depth →
      (manualRmtree cfg e p 0 st).result = .ok ()
      ∧ (manualRmtree cfg e p 0 st).remaining = none
      ∧ (manualRmtree cfg e p 0 st).trace = Entry.postorder e p := by
  intro cfg e p st h1 h2
  exact manualRmtree_removable_ok cfg e p 0 st h1 (by omega)

/-- C4 witness: a two-level tree with a transiently locked file is fully
removed in post-order. -/
theorem C4_manual_rmtree_removes_everything_postorder_witness :
    (manualRmtree defaultCleanerConfig
        (.dir "t" 0 true (.cons (.file "a" 1)
          (.cons (.dir "s" 0 true (.cons (.file "b" 0) .nil)) .nil)))
        ["t"] 0 Stats.zero).result = .ok ()
    ∧ (manualRmtree defaultCleanerConfig
        (.dir "t" 0 true (.cons (.file "a" 1)
          (.cons (.dir "s" 0 true (.cons (.file "b" 0) .nil)) .nil)))
        ["t"] 0 Stats.zero).remaining = none
    ∧ (manualRmtree defaultCleanerConfig
        (.dir "t" 0 true (.cons (.file "a" 1)
          (.cons (.dir "s" 0 true (.cons (.file "b" 0) .nil)) .nil)))
        ["t"] 0 Stats.zero).trace =
      Entry.postorder
        (.dir "t" 0 true (.cons (.file "a" 1)
          (.cons (.dir "s" 0 true (.cons (.file "b" 0) .nil)) .nil))) ["t"] :=
  C4_manual_rmtree_removes_everything_postorder defaultCleanerConfig
    (.dir "t" 0 true (.cons (.file "a" 1)
      (.cons (.dir "s" 0 true (.cons (.file "b" 0) .nil)) .nil)))
    ["t"] Stats.zero (by decide) (by decide)

mutual
theorem manualRmtree_stats_indep (cfg : CleanerConfig) (e : Entry)
    (p : List String) (d : Nat) (st st' : Stats) :
    (manualRmtree cfg e p d st).result = (manualRmtree cfg e p d st').result
    ∧ (manualRmtree cfg e p d st).remaining =
        (manualRmtree cfg e p d st').remaining
    ∧ (manualRmtree cfg e p d st).trace = (manualRmtree cfg e p d st').trace
    ∧ (manualRmtree cfg e p d st).maxEntered =
        (manualRmtree cfg e p d st').maxEntered := by
  by_cases hd : d > cfg.max_depth
  · rw [manualRmtree_depth_guard cfg e p d st hd,
      manualRmtree_depth_guard cfg e p d st' hd]
    exact ⟨rfl, rfl, rfl, rfl⟩
  · cases e with
    | file n fc =>
        cases hf : (safe_remove_file cfg fc).1 <;>
          simp [manualRmtree, hd, hf]
    | dir n rfc lb children =>
        cases lb with
        | false => simp [manualRmtree, hd]
        | true =>
            obtain ⟨h1, h2, h3, h4⟩ :=
              manualRmtreeChildren_stats_indep cfg children p d st st'
            cases hr : (manualRmtreeChildren cfg children p d st').result with
            | error err =>
                have hr2 : (manualRmtreeChildren cfg children p d st).result =
                    .error err := by rw [h1, hr]
                simp [manualRmtree, hd, hr, hr2, h2, h3, h4]
            | ok u =>
                have hr2 : (manualRmtreeChildren cfg children p d st).result =
                    .ok u := by rw [h1, hr]
                cases hrm : (manualRmtreeChildren cfg children p d st').remaining with
                | nil =>
                    have hrm2 : (manualRmtreeChildren cfg children p d st).remaining =
                        .nil := by rw [h2, hrm]
                    cases hsd : (safe_remove_dir cfg rfc).1 <;>
                      simp [manualRmtree, hd, hr, hr2, hrm, hrm2, h3, h4, hsd]
                | cons c rest =>
                    have hrm2 : (manualRmtreeChildren cfg children p d st).remaining =
                        .cons c rest := by rw [h2, hrm]
                    simp [manualRmtree, hd, hr, hr2, hrm, hrm2, h3, h4]

theorem manualRmtreeChildren_stats_indep (cfg : CleanerConfig)
    (l : EntryList) (p : List String) (d : Nat) (st st' : Stats) :
    (manualRmtreeChildren cfg l p d st).result =
        (manualRmtreeChildren cfg l p d st').result
    ∧ (manualRmtreeChildren cfg l p d st).remaining =
        (manualRmtreeChildren cfg l p d st').remaining
    ∧ (manualRmtreeChildren cfg l p d st).trace =
        (manualRmtreeChildren cfg l p d st').trace
    ∧ (manualRmtreeChildren cfg l p d st).maxEntered =
        (manualRmtreeChildren cfg l p d st').maxEntered := by
  cases l with
  | nil => simp [manualRmtreeChildren]
  | cons c rest =>
      cases c with
      | file n fc =>
          cases hf : (safe_remove_file cfg fc).1 with
          | ok u =>
              obtain ⟨h1, h2, h3, h4⟩ := manualRmtreeChildren_stats_indep cfg
                rest p d st.bumpFiles st'.bumpFiles
              simp [manualRmtreeChildren, hf, h1, h2, h3, h4]
          | error err => simp [manualRmtreeChildren, hf]
      | dir n' rfc' lb' cs' =>
          obtain ⟨h1, h2, h3, h4⟩ := manualRmtree_stats_indep cfg
            (.dir n' rfc' lb' cs') (p ++ [n']) (d + 1) st st'
          cases hr : (manualRmtree cfg (.dir n' rfc' lb' cs') (p ++ [n'])
              (d + 1) st').result with
          | error err =>
              have hr2 : (manualRmtree cfg (.dir n' rfc' lb' cs') (p ++ [n'])
                  (d + 1) st).result = .error err := by rw [h1, hr]
              simp [manualRmtreeChildren, hr, hr2, h2, h3, h4]
          | ok u =>
              have hr2 : (manualRmtree cfg (.dir n' rfc' lb' cs') (p ++ [n'])
                  (d + 1) st).result = .ok u := by rw [h1, hr]
              obtain ⟨g1, g2, g3, g4⟩ := manualRmtreeChildren_stats_indep cfg
                rest p d
                ((manualRmtree cfg (.dir n' rfc' lb' cs') (p ++ [n'])
                  (d + 1) st).stats.bumpDirs)
                ((manualRmtree cfg (.dir n' rfc' lb' cs') (p ++ [n'])
                  (d + 1) st').stats.bumpDirs)
              simp [manualRmtreeChildren, hr, hr2, h2, h3, h4, g1, g2, g3, g4]
end

mutual
theorem rmtreeEntry_stats_indep (h : ErrHandler) (e : Entry)
    (p : List String) (st st' : Stats) :
    (rmtreeEntry h e p st).result = (rmtreeEntry h e p st').result
    ∧ (rmtreeEntry h e p st).remaining = (rmtreeEntry h e p st').remaining
    ∧ (rmtreeEntry h e p st).trace = (rmtreeEntry h e p st').trace := by
  cases e with
  | file n fc =>
      cases hp : h.onPersistent <;> simp [rmtreeEntry, hp]
  | dir n rfc lb children =>
      cases lb with
      | false =>
          cases hp : h.onPersistent <;>
            cases children <;>
            cases ho : opWithOnerror h rfc <;>
            simp [rmtreeEntry, hp, ho]
      | true =>
          obtain ⟨h1, h2, h3⟩ := rmtreeChildren_stats_indep h children p st st'
          cases hr : (rmtreeChildren h children p st').result with
          | error err =>
              have hr2 : (rmtreeChildren h children p st).result = .error err := by
                rw [h1, hr]
              simp [rmtreeEntry, hr, hr2, h2, h3]
          | ok u =>
              have hr2 : (rmtreeChildren h children p st).result = .ok u := by
                rw [h1, hr]
              cases hrm : (rmtreeChildren h children p st').remaining with
              | nil =>
                  have hrm2 : (rmtreeChildren h children p st).remaining = .nil := by
                    rw [h2, hrm]
                  cases ho : opWithOnerror h rfc <;>
                    simp [rmtreeEntry, hr, hr2, hrm, hrm2, h3, ho]
              | cons c rest =>
                  have hrm2 : (rmtreeChildren h children p st).remaining =
                      .cons c rest := by rw [h2, hrm]
                  cases hp : h.onPersistent <;>
                    simp [rmtreeEntry, hr, hr2, hrm, hrm2, h3, hp]

theorem rmtreeChildren_stats_indep (h : ErrHandler) (l : EntryList)
    (p : List String) (st st' : Stats) :
    (rmtreeChildren h l p st).result = (rmtreeChildren h l p st').result
    ∧ (rmtreeChildren h l p st).remaining = (rmtreeChildren h l p st').remaining
    ∧ (rmtreeChildren h l p st).trace = (rmtreeChildren h l p st').trace := by
  cases l with
  | nil => simp [rmtreeChildren]
  | cons c rest =>
      cases c with
      | file n fc =>
          cases ho : opWithOnerror h fc with
          | removedNow b =>
              obtain ⟨h1, h2, h3⟩ := rmtreeChildren_stats_indep h rest p
                (st.bumpRetriesIf b) (st'.bumpRetriesIf b)
              simp [rmtreeChildren, ho, h1, h2, h3]
          | handledLeft =>
              obtain ⟨h1, h2, h3⟩ := rmtreeChildren_stats_indep h rest p st st'
              simp [rmtreeChildren, ho, h1, h2, h3]
          | raised err => simp [rmtreeChildren, ho]
      | dir n' rfc' lb' cs' =>
          obtain ⟨h1, h2, h3⟩ := rmtreeEntry_stats_indep h
            (.dir n' rfc' lb' cs') (p ++ [n']) st st'
          cases hr : (rmtreeEntry h (.dir n' rfc' lb' cs') (p ++ [n'])
              st').result with
          | error err =>
              have hr2 : (rmtreeEntry h (.dir n' rfc' lb' cs') (p ++ [n'])
                  st).result = .error err := by rw [h1, hr]
              simp [rmtreeChildren, hr, hr2, h2, h3]
          | ok u =>
              have hr2 : (rmtreeEntry h (.dir n' rfc' lb' cs') (p ++ [n'])
                  st).result = .ok u := by rw [h1, hr]
              obtain ⟨g1, g2, g3⟩ := rmtreeChildren_stats_indep h rest p
                (rmtreeEntry h (.dir n' rfc' lb' cs') (p ++ [n']) st).stats
                (rmtreeEntry h (.dir n' rfc' lb' cs') (p ++ [n']) st').stats
              simp [rmtreeChildren, hr, hr2, h2, h3, g1, g2, g3]
end

theorem rmtree_with_retries_stats_indep (cfg : CleanerConfig) (e : Entry)
    (p : List String) (st st' : Stats) :
    (rmtree_with_retries cfg e p st).result =
        (rmtree_with_retries cfg e p st').result
    ∧ (rmtree_with_retries cfg e p st).remaining =
        (rmtree_with_retries cfg e p st').remaining
    ∧ (rmtree_with_retries cfg e p st).trace =
        (rmtree_with_retries cfg e p st').trace :=
  rmtreeEntry_stats_indep (retryHandler cfg.max_retries) e p st st'

theorem force_rmtree_stats_indep (cfg : CleanerConfig) (fs : Option Entry)
    (p : List String) (st st' : Stats) :
    (force_rmtree cfg fs p st).result = (force_rmtree cfg fs p st').result
    ∧ (force_rmtree cfg fs p st).remaining =
        (force_rmtree cfg fs p st').remaining
    ∧ (force_rmtree cfg fs p st).trace = (force_rmtree cfg fs p st').trace := by
  cases fs with
  | none => exact ⟨rfl, rfl, rfl⟩
  | some e =>
      exact rmtreeEntry_stats_indep forceHandler e p (passACount e st)
        (passACount e st')

theorem manual_rmtree_top_stats_indep (cfg : CleanerConfig)
    (fs : Option Entry) (p : List String) (st st' : Stats) :
    (manual_rmtree_top cfg fs p st).result =
        (manual_rmtree_top cfg fs p st').result
    ∧ (manual_rmtree_top cfg fs p st).remaining =
        (manual_rmtree_top cfg fs p st').remaining
    ∧ (manual_rmtree_top cfg fs p st).trace =
        (manual_rmtree_top cfg fs p st').trace := by
  cases fs with
  | none => exact ⟨rfl, rfl, rfl⟩
  | some e =>
      obtain ⟨h1, h2, h3, _⟩ := manualRmtree_stats_indep cfg e p 0 st st'
      exact ⟨h1, h2, h3⟩

/-- C9 (amended, provable half): the statistics counters never influence
safe_rmtree's control flow or results: whatever the counters hold when a
teardown starts, the returned or raised value, the final filesystem, the
removal events performed and the strategies attempted are identical. -/
theorem C9_stats_never_influence_teardown :
    ∀ (cfg : CleanerConfig) (fs : Option Entry) (p : List String)
      (ign : Bool) (st st' : Stats),
      (WindowsFileSystemCleaner.safe_rmtree cfg fs p ign st).result =
        (WindowsFileSystemCleaner.safe_rmtree cfg fs p ign st').result
      ∧ (WindowsFileSystemCleaner.safe_rmtree cfg fs p ign st).remaining =
        (WindowsFileSystemCleaner.safe_rmtree cfg fs p ign st').remaining
      ∧ (WindowsFileSystemCleaner.safe_rmtree cfg fs p ign st).trace =
        (WindowsFileSystemCleaner.safe_rmtree cfg fs p ign st').trace
      ∧ (WindowsFileSystemCleaner.safe_rmtree cfg fs p ign st).tried =
        (WindowsFileSystemCleaner.safe_rmtree cfg fs p ign st').tried := by
  intro cfg fs p ign st st'
  cases fs with
  | none => exact ⟨rfl, rfl, rfl, rfl⟩
  | some e0 =>
      obtain ⟨b1, b2, b3⟩ := rmtree_with_retries_stats_indep cfg e0 p st st'
      simp only [WindowsFileSystemCleaner.safe_rmtree]
      rw [b1, b2, b3]
      obtain ⟨c1, c2, c3⟩ := force_rmtree_stats_indep cfg
        (rmtree_with_retries cfg e0 p st').remaining p
        (rmtree_with_retries cfg e0 p st).stats
        (rmtree_with_retries cfg e0 p st').stats
      rw [c1, c2, c3]
      obtain ⟨d1, d2, d3⟩ := manual_rmtree_top_stats_indep cfg
        (force_rmtree cfg (rmtree_with_retries cfg e0 p st').remaining p
          (rmtree_with_retries cfg e0 p st').stats).remaining p
        (force_rmtree cfg (rmtree_with_retries cfg e0 p st').remaining p
          (rmtree_with_retries cfg e0 p st).stats).stats
        (force_rmtree cfg (rmtree_with_retries cfg e0 p st').remaining p
          (rmtree_with_retries cfg e0 p st').stats).stats
      rw [d1, d2, d3]
      cases (rmtree_with_retries cfg e0 p st').result with
      | ok u => exact ⟨rfl, rfl, rfl, rfl⟩
      | error e1 =>
          cases (force_rmtree cfg (rmtree_with_retries cfg e0 p st').remaining
              p (rmtree_with_retries cfg e0 p st').stats).result with
          | ok u2 => exact ⟨rfl, rfl, rfl, rfl⟩
          | error e2 =>
              cases (manual_rmtree_top cfg
                  (force_rmtree cfg
                    (rmtree_with_retries cfg e0 p st').remaining p
                    (rmtree_with_retries cfg e0 p st').stats).remaining p
                  (force_rmtree cfg
                    (rmtree_with_retries cfg e0 p st').remaining p
                    (rmtree_with_retries cfg e0 p st').stats).stats).result with
              | ok u3 => exact ⟨rfl, rfl, rfl, rfl⟩
              | error e3 =>
                  cases ign <;> exact ⟨rfl, rfl, rfl, rfl⟩

/-- C9 counterexample: tearing down a directory holding one file with no
obstacles succeeds via RETRY_STANDARD, actually removing one file and one
directory — yet files_removed and dirs_removed remain 0, because the native
delete of strategy 1 never updates the counters.  The exposed statistics do
not equal the number of files and directories actually removed by the call. -/
theorem C9_counterexample_counters_not_removals :
    (WindowsFileSystemCleaner.safe_rmtree defaultCleanerConfig
      (some (.dir "t" 0 true (.cons (.file "a" 0) .nil))) ["t"] true
      Stats.zero).result = .ok true
    ∧ (WindowsFileSystemCleaner.safe_rmtree defaultCleanerConfig
      (some (.dir "t" 0 true (.cons (.file "a" 0) .nil))) ["t"] true
      Stats.zero).remaining = none
    ∧ (WindowsFileSystemCleaner.safe_rmtree defaultCleanerConfig
      (some (.dir "t" 0 true (.cons (.file "a" 0) .nil))) ["t"] true
      Stats.zero).stats = Stats.zero
    ∧ countRemovedFiles (WindowsFileSystemCleaner.safe_rmtree
      defaultCleanerConfig
      (some (.dir "t" 0 true (.cons (.file "a" 0) .nil))) ["t"] true
      Stats.zero).trace = 1
    ∧ countRemovedDirs (WindowsFileSystemCleaner.safe_rmtree
      defaultCleanerConfig
      (some (.dir "t" 0 true (.cons (.file "a" 0) .nil))) ["t"] true
      Stats.zero).trace = 1 :=
  ⟨rfl, rfl, rfl, rfl, rfl⟩

/-- C2: with ignore_errors=true the teardown never raises, for every
filesystem and every pattern of failures — it returns some boolean (and the
bare-rmtree platform branch does the same); and when all three strategies
fail, the result is False under ignore_errors=true, while under
ignore_errors=false a single WindowsCleanupError is raised that carries all
three underlying strategy failures. -/
theorem C2_ignore_errors_and_composite_error :
    (∀ (cfg : CleanerConfig) (fs : Option Entry) (p : List String)
        (st : Stats),
      ∃ b : Bool,
        (WindowsFileSystemCleaner.safe_rmtree cfg fs p true st).result =
          .ok b)
    ∧ (∀ (fs : Option Entry) (o : Option PyErr),
      ∃ b : Bool, (plainRmtreeBranch fs o true).result = .ok b)
    ∧ (∀ (cfg : CleanerConfig) (e : Entry) (p : List String) (st : Stats)
        (e1 e2 e3 : PyErr),
      (rmtree_with_retries cfg e p st).result = .error e1 →
      (force_rmtree cfg (rmtree_with_retries cfg e p st).remaining p
        (rmtree_with_retries cfg e p st).stats).result = .error e2 →
      (manual_rmtree_top cfg
        (force_rmtree cfg (rmtree_with_retries cfg e p st).remaining p
          (rmtree_with_retries cfg e p st).stats).remaining p
        (force_rmtree cfg (rmtree_with_retries cfg e p st).remaining p
          (rmtree_with_retries cfg e p st).stats).stats).result = .error e3 →
      (WindowsFileSystemCleaner.safe_rmtree cfg (some e) p true st).result =
          .ok false
      ∧ (WindowsFileSystemCleaner.safe_rmtree cfg (some e) p false st).result =
          .error (.allStrategiesFailed e1 e2 e3)) := by
  refine ⟨?_, ?_, ?_⟩
  · intro cfg fs p st
    cases fs with
    | none => exact ⟨true, rfl⟩
    | some e =>
        simp only [WindowsFileSystemCleaner.safe_rmtree]
        cases (rmtree_with_retries cfg e p st).result with
        | ok u => exact ⟨true, rfl⟩
        | error e1 =>
            cases (force_rmtree cfg (rmtree_with_retries cfg e p st).remaining
                p (rmtree_with_retries cfg e p st).stats).result with
            | ok u2 => exact ⟨true, rfl⟩
            | error e2 =>
                cases (manual_rmtree_top cfg
                    (force_rmtree cfg
                      (rmtree_with_retries cfg e p st).remaining p
                      (rmtree_with_retries cfg e p st).stats).remaining p
                    (force_rmtree cfg
                      (rmtree_with_retries cfg e p st).remaining p
                      (rmtree_with_retries cfg e p st).stats).stats).result with
                | ok u3 => exact ⟨true, rfl⟩
                | error e3 => exact ⟨false, rfl⟩
  · intro fs o
    cases fs with
    | none => exact ⟨false, rfl⟩
    | some e =>
        cases o with
        | none => exact ⟨true, rfl⟩
        | some err => exact ⟨false, rfl⟩
  · intro cfg e p st e1 e2 e3 h1 h2 h3
    constructor
    · simp only [WindowsFileSystemCleaner.safe_rmtree, h1, h2, h3]
      simp
    · simp only [WindowsFileSystemCleaner.safe_rmtree, h1, h2, h3]
      simp

/-- C2 witness: a directory holding a permanently locked file defeats all
three strategies; with ignore_errors=true the call returns False, with
ignore_errors=false it raises the composite error carrying the three
per-strategy failures. -/
theorem C2_ignore_errors_and_composite_error_witness :
    (WindowsFileSystemCleaner.safe_rmtree defaultCleanerConfig
      (some (.dir "t" 0 true (.cons (.file "a" 1000) .nil))) ["t"] true
      Stats.zero).result = .ok false
    ∧ (WindowsFileSystemCleaner.safe_rmtree defaultCleanerConfig
      (some (.dir "t" 0 true (.cons (.file "a" 1000) .nil))) ["t"] false
      Stats.zero).result =
        .error (.allStrategiesFailed .permissionError .permissionError
          .permissionError) :=
  C2_ignore_errors_and_composite_error.2.2 defaultCleanerConfig
    (.dir "t" 0 true (.cons (.file "a" 1000) .nil)) ["t"] Stats.zero
    .permissionError .permissionError .permissionError rfl rfl rfl
